/-
Verification of the my-typeless voice pipeline core.

Shallow embedding of:
  - src/my_typeless/recorder.py   (Recorder._record_loop pause detection)
  - src/my_typeless/worker.py     (Worker: _stt_task, _llm_task, queue wiring)
  - src/my_typeless/config.py     (AppConfig.build_stt_prompt consumers)
  - src/my_typeless/llm_client.py (LLMClient.refine call interface)

Python strings are modelled as `List Char` (sequences of code points), queues
as the list of items they deliver in FIFO order, and the external STT/LLM
calls as oracle functions returning `Except` (exception or result).
-/
import Mathlib

set_option maxHeartbeats 1000000

namespace MyTypeless

/-- Python slice `s[-n:]` for `n > 0`: the last `min n (length s)` elements. -/
def pyTakeRight {α : Type} (l : List α) (n : Nat) : List α :=
  l.drop (l.length - n)

/-- Python `str.strip()`: remove leading and trailing whitespace. -/
def pyStrip (s : List Char) : List Char :=
  ((s.dropWhile Char.isWhitespace).reverse.dropWhile Char.isWhitespace).reverse

/-- Python truthiness of an `Optional[str]`: `None` and the empty string are falsy. -/
def pyTruthy : Option (List Char) → Bool
  | none => false
  | some s => !s.isEmpty

/-! ## Segment detector (recorder.py, Recorder._record_loop)

An audio chunk is its list of signed 16-bit samples (recorder.py unpacks the
byte buffer with struct.unpack before computing RMS). -/

/-- Sum of squared samples of one chunk (recorder.py `sum(s * s for s in samples)`). -/
def sumSq (samples : List Int) : Int :=
  (samples.map (fun s => s * s)).sum

/-- recorder.py compares `_calculate_rms(data) >= SILENCE_THRESHOLD` with
threshold 500 and rms = sqrt(sum_sq / count) (count = 0 gives rms 0.0, below
threshold).  Since sqrt is monotone and all quantities are exact integers,
sqrt(sum_sq / count) >= 500 holds iff sum_sq >= 250000 * count, which is the
integer comparison used here. -/
def rmsAtLeastThreshold (samples : List Int) : Bool :=
  decide (samples ≠ [] ∧ (250000 : Int) * samples.length ≤ sumSq samples)

/-- `int(SILENCE_DURATION * SAMPLE_RATE / CHUNK_SIZE)` = `int(0.6 * 16000 / 1024)`
= `int(9.375)` = 9 (the float products are exact enough that the rounding is exact). -/
def silenceChunksNeeded : Nat := 9

/-- `int(MIN_SPEECH_DURATION * SAMPLE_RATE / CHUNK_SIZE)` = `int(0.5 * 16000 / 1024)`
= `int(7.8125)` = 7. -/
def minSpeechChunks : Nat := 7

/-- Mutable state of the pause detector inside Recorder: `_segment_frames`,
`_in_speech`, `_silence_chunks`. -/
structure DetState where
  segmentFrames : List (List Int)
  inSpeech : Bool
  silenceChunks : Nat
  deriving DecidableEq, Repr

/-- Recorder.start resets `_segment_frames = []`, `_in_speech = False`,
`_silence_chunks = 0`. -/
def initDetState : DetState := ⟨[], false, 0⟩

/-- One iteration of the incremental-mode body of Recorder._record_loop
(recorder.py lines 104-132) on one chunk.  Returns the new state and the
segment passed to `on_segment`, if any.  A segment is modelled as its frame
list; `_build_wav` is an injective encoding applied on top and is abstracted
away. -/
def detectorStep (st : DetState) (data : List Int) :
    DetState × Option (List (List Int)) :=
  let frames := st.segmentFrames ++ [data]
  if rmsAtLeastThreshold data then
    ({ segmentFrames := frames, inSpeech := true, silenceChunks := 0 }, none)
  else
    let sil := st.silenceChunks + 1
    if st.inSpeech ∧ silenceChunksNeeded ≤ sil then
      let speechEnd : Int := (frames.length : Int) - (sil : Int)
      let emitted :=
        if (minSpeechChunks : Int) ≤ speechEnd then
          some (frames.take speechEnd.toNat)
        else
          none
      ({ segmentFrames := pyTakeRight frames sil,
         inSpeech := false, silenceChunks := 0 }, emitted)
    else
      ({ segmentFrames := frames, inSpeech := st.inSpeech, silenceChunks := sil },
       none)

/-- Run the detector over a chunk sequence, collecting the emitted segments
in emission order. -/
def runDetector (st : DetState) : List (List Int) → DetState × List (List (List Int))
  | [] => (st, [])
  | c :: cs =>
    let step := detectorStep st c
    let rest := runDetector step.1 cs
    (rest.1, step.2.toList ++ rest.2)

/-! ## Inter-stage queue items (worker.py)

The segment queue carries WAV byte buffers (opaque here, modelled as
`List Char`) and the sentinel tuple `(_SENTINEL, key_release_at)` pushed by
`stop_recording_and_process`.  The text queue carries transcribed texts and
the sentinel tuple forwarded by `_stt_task` — whose `key_release_at` slot is
`None` on the fatal-error path (worker.py line 160). -/

/-- One item of the segment queue. -/
inductive SegItem where
  | seg (audio : List Char)
  | sentinel (keyReleaseAt : List Char)
  deriving DecidableEq, Repr

/-- One item of the text queue. -/
inductive TextItem where
  | txt (t : List Char)
  | sentinel (keyReleaseAt : Option (List Char))
  deriving DecidableEq, Repr

/-- Cap `_MAX_PROMPT_CHARS` (worker.py line 23). -/
def maxPromptChars : Nat := 400

/-- The STT priming prompt built in _stt_task (worker.py lines 131-141) from
the base glossary prompt (`AppConfig.build_stt_prompt`) and the texts already
transcribed this session (`transcription_parts`). -/
def sttPrompt (basePrompt : List Char) (parts : List (List Char)) : List Char :=
  if parts.isEmpty then
    basePrompt
  else
    let accumulated := parts.flatten
    if basePrompt.isEmpty then
      pyTakeRight accumulated maxPromptChars
    else
      let tailBudget : Int := (maxPromptChars : Int) - basePrompt.length - 1
      let tl := if 0 < tailBudget then pyTakeRight accumulated tailBudget.toNat else []
      if tl.isEmpty then basePrompt else tl ++ ' ' :: basePrompt

/-- The main loop of Worker._stt_task (worker.py lines 116-154) as a function
of the FIFO sequence of segment-queue items.  `transcribe` is the external
STT oracle (`STTClient.transcribe`); `Except.error` models a raised
exception.  A per-segment exception is caught, logged and *skipped*
(worker.py lines 151-154): the loop continues with the next item. -/
def sttLoop (transcribe : List Char → List Char → Except String (List Char))
    (basePrompt : List Char) :
    List (List Char) → List SegItem → List TextItem
  | _, [] => []
  | _, SegItem.sentinel kr :: _ => [TextItem.sentinel (some kr)]
  | parts, SegItem.seg a :: rest =>
    let prompt := sttPrompt basePrompt parts
    match transcribe a prompt with
    | Except.ok t =>
      if !t.isEmpty && !(pyStrip t).isEmpty then
        TextItem.txt t :: sttLoop transcribe basePrompt (parts ++ [t]) rest
      else
        sttLoop transcribe basePrompt parts rest
    | Except.error _ => sttLoop transcribe basePrompt parts rest

/-- Observable result of one run of the STT stage thread: the items it pushed
onto the text queue and the messages it emitted on `error_occurred`. -/
structure SttOutcome where
  outputs : List TextItem
  errors : List String
  deriving DecidableEq, Repr

/-- Worker._stt_task (worker.py lines 109-160).  `initError` models an
exception raised by `STTClient(self._config.stt)` (or anything else outside
the per-segment try), which is caught by the outer handler: it emits
`STT Error: ...` on `error_occurred` and pushes `(_SENTINEL, None)` so the
LLM thread can finish (worker.py lines 156-160). -/
def sttTask (initError : Option String)
    (transcribe : List Char → List Char → Except String (List Char))
    (basePrompt : List Char) (items : List SegItem) : SttOutcome :=
  match initError with
  | some e => { outputs := [TextItem.sentinel none], errors := ["STT Error: " ++ e] }
  | none => { outputs := sttLoop transcribe basePrompt [] items, errors := [] }

/-! ## Refinement stage (worker.py, Worker._llm_task) -/

/-- Argument record of the `add_history` call at worker.py lines 224-230. -/
structure HistoryRec where
  rawInput : List Char
  refinedOutput : List Char
  keyPressAt : List Char
  keyReleaseAt : List Char
  sttDoneAt : List Char
  llmDoneAt : List Char
  deriving DecidableEq, Repr

/-- Observable effects of the finalization part of Worker._llm_task:
the `inject_text` argument (if called), the `add_history` record (if
written), the `result_ready` payload (if emitted), the messages emitted on
`error_occurred`, and the state emitted by the `finally` block. -/
structure LlmFinal where
  injected : Option (List Char)
  history : Option HistoryRec
  resultReady : Option (List Char)
  errors : List String
  finalState : String
  deriving DecidableEq, Repr

/-- Result of the LLM stage thread on a finite item sequence: `running` when
the queue sequence is exhausted without a sentinel (the real thread would
still be blocked on the queue), otherwise the finalization effects. -/
inductive LlmOutcome where
  | running
  | done (f : LlmFinal)
  deriving DecidableEq, Repr

/-- The main loop of Worker._llm_task (worker.py lines 172-201) as a function
of the FIFO sequence of text-queue items.  `refine` is the refinement call as
the worker invokes it: positional text, then system prompt, then the context
(`"".flatten(refined_parts)`).  On a raised exception the raw text is appended
in place of the refined text (worker.py lines 197-201).  Returns the
accumulated `raw_parts`, `refined_parts`, and the sentinel payload if the
loop broke on a sentinel. -/
def llmLoop (refine : List Char → List Char → List Char → Except String (List Char))
    (sysPrompt : List Char) :
    List (List Char) → List (List Char) → List TextItem →
      List (List Char) × List (List Char) × Option (Option (List Char))
  | raw, refined, [] => (raw, refined, none)
  | raw, refined, TextItem.sentinel kr :: _ => (raw, refined, some kr)
  | raw, refined, TextItem.txt t :: rest =>
    let ctx := refined.flatten
    match refine t sysPrompt ctx with
    | Except.ok r => llmLoop refine sysPrompt (raw ++ [t]) (refined ++ [r]) rest
    | Except.error _ => llmLoop refine sysPrompt (raw ++ [t]) (refined ++ [t]) rest

/-- Finalization of Worker._llm_task (worker.py lines 203-239): skip all side
effects when the accumulated raw text strips to empty; otherwise inject the
concatenated refined text, write history only when `key_release_at` is
truthy, and emit `result_ready`.  The `finally` block always emits `idle`. -/
def llmFinalize (keyPressAt doneAt : List Char) (keyReleaseAt : Option (List Char))
    (raw refined : List (List Char)) : LlmFinal :=
  let fullRaw := raw.flatten
  let fullRefined := refined.flatten
  if (pyStrip fullRaw).isEmpty then
    { injected := none, history := none, resultReady := none,
      errors := [], finalState := "idle" }
  else
    { injected := some fullRefined,
      history :=
        if pyTruthy keyReleaseAt then
          some { rawInput := fullRaw, refinedOutput := fullRefined,
                 keyPressAt := keyPressAt,
                 keyReleaseAt := keyReleaseAt.getD [],
                 sttDoneAt := doneAt, llmDoneAt := doneAt }
        else
          none,
      resultReady := some fullRefined,
      errors := [], finalState := "idle" }

/-- Worker._llm_task (worker.py lines 162-239) over the FIFO sequence of
text-queue items.  `doneAt` is the `done_at` timestamp taken when the loop
exits. -/
def llmTask (refine : List Char → List Char → List Char → Except String (List Char))
    (sysPrompt keyPressAt doneAt : List Char) (items : List TextItem) : LlmOutcome :=
  match llmLoop refine sysPrompt [] [] items with
  | (_, _, none) => LlmOutcome.running
  | (raw, refined, some kr) => LlmOutcome.done (llmFinalize keyPressAt doneAt kr raw refined)

/-- The per-chunk refinement results of a session, defined directly by
recursion over the transcribed texts: chunk `i` is refined against the
concatenation of the previous refined chunks, and falls back to its raw text
when the call raises. -/
def refinedSeqAux (refine : List Char → List Char → List Char → Except String (List Char))
    (sysPrompt : List Char) : List Char → List (List Char) → List (List Char)
  | _, [] => []
  | ctx, t :: ts =>
    let r := match refine t sysPrompt ctx with
      | Except.ok r => r
      | Except.error _ => t
    r :: refinedSeqAux refine sysPrompt (ctx ++ r) ts

/-- Refined chunk sequence of a session starting from the empty context. -/
def refinedSeq (refine : List Char → List Char → List Char → Except String (List Char))
    (sysPrompt : List Char) (ts : List (List Char)) : List (List Char) :=
  refinedSeqAux refine sysPrompt [] ts

/-! ## Controller (worker.py, start_recording / stop_recording_and_process) -/

/-- The full FIFO content of one session's segment queue:
the segments pushed by the `_on_segment` callback during recording, then —
per stop_recording_and_process (worker.py lines 86-98) — the trailing
remainder returned by `Recorder.stop()` if non-empty, then the sentinel
carrying `key_release_at`. -/
def sessionSegItems (callbackSegs : List (List Char)) (remaining : List Char)
    (keyReleaseAt : List Char) : List SegItem :=
  callbackSegs.map SegItem.seg
    ++ (if remaining.isEmpty then [] else [SegItem.seg remaining])
    ++ [SegItem.sentinel keyReleaseAt]

/-- Queue-allocation state of a Worker instance.  `queue.Queue()` always
returns an object distinct from every previously allocated queue; this is
modelled by a monotone allocation counter handing out fresh identities. -/
structure WorkerQueues where
  segQueue : Nat
  textQueue : Nat
  nextId : Nat
  deriving DecidableEq, Repr

/-- Worker.__init__ (worker.py lines 51-52) allocates an initial pair of
queues. -/
def workerInit : WorkerQueues := ⟨0, 1, 2⟩

/-- The queues a session's two stage threads are bound to: `_stt_task` gets
`(segment_queue, text_queue)` and `_llm_task` gets `text_queue` — the very
objects assigned in the same `start_recording` call (worker.py lines 66-84). -/
structure StageBinding where
  segQueue : Nat
  textQueue : Nat
  deriving DecidableEq, Repr

/-- Worker.start_recording (worker.py lines 60-84): allocate a fresh segment
queue and a fresh text queue, then start both stage threads bound to them. -/
def start_recording (w : WorkerQueues) : WorkerQueues × StageBinding :=
  let seg := w.nextId
  let txt := w.nextId + 1
  (⟨seg, txt, w.nextId + 2⟩, ⟨seg, txt⟩)

/-- The worker state and session bindings after `n` consecutive
`start_recording` calls on one Worker instance. -/
def iterateStart : Nat → WorkerQueues × List StageBinding
  | 0 => (workerInit, [])
  | n + 1 =>
    let p := iterateStart n
    let q := start_recording p.1
    (q.1, p.2 ++ [q.2])

/-- The stage bindings of sessions `0..n-1`, in session order. -/
def pipelineSessions (n : Nat) : List StageBinding :=
  (iterateStart n).2

/-- No queue of one session is a queue of the other. -/
def bindingsDisjoint (a b : StageBinding) : Bool :=
  decide (a.segQueue ≠ b.segQueue ∧ a.segQueue ≠ b.textQueue ∧
    a.textQueue ≠ b.segQueue ∧ a.textQueue ≠ b.textQueue)

/-! ## The refinement call interface (llm_client.py vs worker.py)

`LLMClient.refine` (llm_client.py line 23) is declared as
`refine(self, raw_text, corrections=None)`: its parameter names are
`raw_text` and `corrections`.  Worker._llm_task invokes it as
`llm.refine(raw_text, system_prompt=..., context=...)` (worker.py lines
190-194).  Python raises `TypeError` when a call passes a keyword argument
that is not among the parameters of the callee. -/

/-- Parameter names of `LLMClient.refine` after `self` (llm_client.py line 23). -/
def llmClientRefineParams : List String := ["raw_text", "corrections"]

/-- Keyword-argument names passed by the worker call site (worker.py lines 190-194). -/
def workerRefineKeywords : List String := ["system_prompt", "context"]

/-- Whether every keyword the worker passes is a parameter of
`LLMClient.refine`, i.e. whether the call can bind without `TypeError`. -/
def refineCallAccepted : Bool :=
  workerRefineKeywords.all (fun k => llmClientRefineParams.contains k)

/-- The refinement call of the integrated program: since the worker's keyword
arguments are not parameters of `LLMClient.refine`, every call raises
`TypeError` before any network request is made. -/
def actualLLMRefine : List Char → List Char → List Char → Except String (List Char) :=
  fun _ _ _ => Except.error "TypeError: refine got an unexpected keyword argument system_prompt"

/-! ## Concrete oracles used in closed evaluations -/

/-- Refinement oracle mapping text to uppercase (the refine behavior used by
the repository's own pipeline tests). -/
def upperRefine : List Char → List Char → List Char → Except String (List Char) :=
  fun t _ _ => Except.ok (t.map Char.toUpper)

/-- Identity refinement oracle. -/
def idRefine : List Char → List Char → List Char → Except String (List Char) :=
  fun t _ _ => Except.ok t

/-- Identity refinement whose calls raise as soon as the context is
non-empty, i.e. from the second chunk of a session on. -/
def refineC8 : List Char → List Char → List Char → Except String (List Char) :=
  fun t _ ctx => if ctx.isEmpty then Except.ok t else Except.error "API failure"

/-- Transcription oracle that always raises. -/
def failTranscribe : List Char → List Char → Except String (List Char) :=
  fun _ _ => Except.error "STT Failed"

/-- Transcription oracle raising on the first segment and succeeding on the
second. -/
def transcribeC2 : List Char → List Char → Except String (List Char) :=
  fun a _ =>
    if a = "seg1".toList then Except.error "STT Failed" else Except.ok "world".toList

/-! # Lemmas -/

/-- Running Worker._llm_task's loop over the texts of one session followed by
the sentinel: the raw accumulator collects every text in arrival order and
the refined accumulator extends by `refinedSeqAux` continued from the current
context. -/
lemma llmLoop_spec (refine : List Char → List Char → List Char → Except String (List Char))
    (sysPrompt : List Char) :
    ∀ (ts raw refined : List (List Char)) (kr : Option (List Char)),
    llmLoop refine sysPrompt raw refined (ts.map TextItem.txt ++ [TextItem.sentinel kr])
      = (raw ++ ts, refined ++ refinedSeqAux refine sysPrompt refined.flatten ts, some kr) := by
  intro ts
  induction ts with
  | nil =>
    intro raw refined kr
    simp [llmLoop, refinedSeqAux]
  | cons t ts ih =>
    intro raw refined kr
    simp only [List.map_cons, List.cons_append, llmLoop, refinedSeqAux]
    cases h : refine t sysPrompt refined.flatten with
    | ok r =>
      simp only [h, List.append_eq]
      rw [ih]
      simp [List.flatten_append, List.append_assoc]
    | error e =>
      simp only [h, List.append_eq]
      rw [ih]
      simp [List.flatten_append, List.append_assoc]

/-- Claim C3: when a session delivers texts `t_1..t_N` followed by the
sentinel (arrival order is the FIFO queue order, so the relative completion
times of the two stage threads cannot influence it), and the concatenated
raw text is not blank and the sentinel's release timestamp is non-empty,
then the injected and `result_ready` text is the concatenation of the
per-chunk refined results `r_1..r_N` and the history record's raw field is
the concatenation of `t_1..t_N`. -/
theorem c3_final_text_concatenation
    (refine : List Char → List Char → List Char → Except String (List Char))
    (sysPrompt keyPressAt doneAt : List Char) (ts : List (List Char)) (kr : List Char)
    (hraw : (pyStrip ts.flatten).isEmpty = false) (hkr : kr.isEmpty = false) :
    llmTask refine sysPrompt keyPressAt doneAt
        (ts.map TextItem.txt ++ [TextItem.sentinel (some kr)])
      = LlmOutcome.done
          { injected := some (refinedSeq refine sysPrompt ts).flatten,
            history := some
              { rawInput := ts.flatten,
                refinedOutput := (refinedSeq refine sysPrompt ts).flatten,
                keyPressAt := keyPressAt, keyReleaseAt := kr,
                sttDoneAt := doneAt, llmDoneAt := doneAt },
            resultReady := some (refinedSeq refine sysPrompt ts).flatten,
            errors := [], finalState := "idle" } := by
  rw [llmTask, llmLoop_spec]
  simp [llmFinalize, refinedSeq, hraw, pyTruthy, hkr]

/-- Witness for C3 at the repository's own test scenario: texts
`Hello`, ` world`, uppercase refinement, release timestamp `12:00:00`. -/
theorem c3_final_text_concatenation_witness :
    (pyStrip (["Hello".toList, " world".toList] : List (List Char)).flatten).isEmpty = false ∧
    ("12:00:00".toList).isEmpty = false ∧
    llmTask upperRefine [] [] []
        ((["Hello".toList, " world".toList] : List (List Char)).map TextItem.txt
          ++ [TextItem.sentinel (some "12:00:00".toList)])
      = LlmOutcome.done
          { injected := some "HELLO WORLD".toList,
            history := some
              { rawInput := "Hello world".toList,
                refinedOutput := "HELLO WORLD".toList,
                keyPressAt := [], keyReleaseAt := "12:00:00".toList,
                sttDoneAt := [], llmDoneAt := [] },
            resultReady := some "HELLO WORLD".toList,
            errors := [], finalState := "idle" } := by
  refine ⟨by decide, by decide, ?_⟩
  have h := c3_final_text_concatenation upperRefine [] [] []
    ["Hello".toList, " world".toList] "12:00:00".toList (by decide) (by decide)
  exact h.trans (by decide)

/-- Claim C7: a session whose accumulated raw text strips to empty performs
no injection, writes no history, emits no result and no error, and ends in
the idle state. -/
theorem c7_blank_session_noop
    (refine : List Char → List Char → List Char → Except String (List Char))
    (sysPrompt keyPressAt doneAt : List Char) (ts : List (List Char))
    (kr : Option (List Char))
    (hraw : (pyStrip ts.flatten).isEmpty = true) :
    llmTask refine sysPrompt keyPressAt doneAt
        (ts.map TextItem.txt ++ [TextItem.sentinel kr])
      = LlmOutcome.done
          { injected := none, history := none, resultReady := none,
            errors := [], finalState := "idle" } := by
  rw [llmTask, llmLoop_spec]
  simp [llmFinalize, hraw]

/-- Witness for C7: a session whose only chunk is a single space. -/
theorem c7_blank_session_noop_witness :
    (pyStrip ([" ".toList] : List (List Char)).flatten).isEmpty = true ∧
    llmTask upperRefine [] [] []
        (([" ".toList] : List (List Char)).map TextItem.txt
          ++ [TextItem.sentinel (some "12:00:00".toList)])
      = LlmOutcome.done
          { injected := none, history := none, resultReady := none,
            errors := [], finalState := "idle" } :=
  ⟨by decide,
   c7_blank_session_noop upperRefine [] [] [] [" ".toList]
     (some "12:00:00".toList) (by decide)⟩

/-- `refinedSeqAux` produces one refined chunk per input chunk. -/
lemma refinedSeqAux_length
    (refine : List Char → List Char → List Char → Except String (List Char))
    (sysPrompt : List Char) :
    ∀ (ts : List (List Char)) (ctx : List Char),
      (refinedSeqAux refine sysPrompt ctx ts).length = ts.length := by
  intro ts
  induction ts with
  | nil => intro ctx; simp [refinedSeqAux]
  | cons t ts ih => intro ctx; simp [refinedSeqAux, ih]

/-- Chunk `i` of `refinedSeqAux` is the refinement of input chunk `i` against
the concatenation of the preceding refined chunks, falling back to the raw
chunk on a raised exception. -/
lemma refinedSeqAux_getD
    (refine : List Char → List Char → List Char → Except String (List Char))
    (sysPrompt : List Char) :
    ∀ (ts : List (List Char)) (ctx : List Char) (i : Nat), i < ts.length →
      (refinedSeqAux refine sysPrompt ctx ts).getD i []
        = match refine (ts.getD i [])
              sysPrompt (ctx ++ ((refinedSeqAux refine sysPrompt ctx ts).take i).flatten) with
          | Except.ok r => r
          | Except.error _ => ts.getD i [] := by
  intro ts
  induction ts with
  | nil => intro ctx i h; simp at h
  | cons t ts ih =>
    intro ctx i h
    cases i with
    | zero => simp [refinedSeqAux]
    | succ i =>
      have h' : i < ts.length := by simpa using h
      simp only [refinedSeqAux, List.getD_cons_succ, List.take_succ_cons,
        List.flatten_cons]
      rw [ih _ i h']
      simp [List.append_assoc]

/-- Claim C8: on every chunk where the refinement call raises, the raw chunk
text takes the refined chunk's place, and the session still runs to
completion: the loop consumes all texts, reaches the sentinel, and hands the
full accumulators to finalization. -/
theorem c8_refine_fallback
    (refine : List Char → List Char → List Char → Except String (List Char))
    (sysPrompt : List Char) (ts : List (List Char)) (kr : Option (List Char))
    (i : Nat) (e : String) (hi : i < ts.length)
    (herr : refine (ts.getD i []) sysPrompt
        (((refinedSeq refine sysPrompt ts).take i).flatten) = Except.error e) :
    (refinedSeq refine sysPrompt ts).getD i [] = ts.getD i [] ∧
    llmLoop refine sysPrompt [] [] (ts.map TextItem.txt ++ [TextItem.sentinel kr])
      = (ts, refinedSeq refine sysPrompt ts, some kr) := by
  constructor
  · have h := refinedSeqAux_getD refine sysPrompt ts [] i hi
    rw [refinedSeq] at herr ⊢
    rw [h]
    simp only [List.nil_append] at *
    rw [herr]
  · rw [llmLoop_spec]
    simp [refinedSeq]

/-- Witness for C8 at the spec's scenario: STT results `Hello`, ` world`,
identity refinement with the second call raising; the final injected text is
`Hello world`. -/
theorem c8_refine_fallback_witness :
    (1 < (["Hello".toList, " world".toList] : List (List Char)).length) ∧
    refineC8 ((["Hello".toList, " world".toList] : List (List Char)).getD 1 []) []
        (((refinedSeq refineC8 [] ["Hello".toList, " world".toList]).take 1).flatten)
      = Except.error "API failure" ∧
    (refinedSeq refineC8 [] ["Hello".toList, " world".toList]).getD 1 []
      = " world".toList ∧
    llmTask refineC8 [] [] []
        ((["Hello".toList, " world".toList] : List (List Char)).map TextItem.txt
          ++ [TextItem.sentinel (some "12:00:00".toList)])
      = LlmOutcome.done
          { injected := some "Hello world".toList,
            history := some
              { rawInput := "Hello world".toList,
                refinedOutput := "Hello world".toList,
                keyPressAt := [], keyReleaseAt := "12:00:00".toList,
                sttDoneAt := [], llmDoneAt := [] },
            resultReady := some "Hello world".toList,
            errors := [], finalState := "idle" } := by
  refine ⟨by decide, rfl, ?_, by decide⟩
  exact (c8_refine_fallback refineC8 [] ["Hello".toList, " world".toList]
    (some "12:00:00".toList) 1 "API failure" (by decide) rfl).1.trans (by decide)

/-- Claim C10: with the sentinel of the fatal STT path (release timestamp
`None`), finalization still injects and notifies whenever the raw text is
non-blank, but never writes history; and in general a history record exists
only when the sentinel carries a non-None (indeed non-empty) timestamp. -/
theorem c10_history_requires_release_timestamp
    (refine : List Char → List Char → List Char → Except String (List Char))
    (sysPrompt keyPressAt doneAt : List Char) (ts : List (List Char)) :
    (∀ f, llmTask refine sysPrompt keyPressAt doneAt
          (ts.map TextItem.txt ++ [TextItem.sentinel none]) = LlmOutcome.done f →
        f.history = none) ∧
    ((pyStrip ts.flatten).isEmpty = false →
      llmTask refine sysPrompt keyPressAt doneAt
          (ts.map TextItem.txt ++ [TextItem.sentinel none])
        = LlmOutcome.done
            { injected := some (refinedSeq refine sysPrompt ts).flatten,
              history := none,
              resultReady := some (refinedSeq refine sysPrompt ts).flatten,
              errors := [], finalState := "idle" }) ∧
    (∀ (kr : Option (List Char)) f,
      llmTask refine sysPrompt keyPressAt doneAt
          (ts.map TextItem.txt ++ [TextItem.sentinel kr]) = LlmOutcome.done f →
        f.history.isSome = true → ∃ s, kr = some s ∧ s ≠ []) := by
  refine ⟨?_, ?_, ?_⟩
  · intro f hf
    rw [llmTask, llmLoop_spec] at hf
    simp only [LlmOutcome.done.injEq] at hf
    rw [← hf]
    simp only [List.nil_append, List.flatten_nil]
    by_cases hb : pyStrip ts.flatten = []
    · simp [llmFinalize, hb]
    · simp [llmFinalize, hb, pyTruthy]
  · intro hraw
    rw [llmTask, llmLoop_spec]
    simp [llmFinalize, refinedSeq, hraw, pyTruthy]
  · intro kr f hf hsome
    rw [llmTask, llmLoop_spec] at hf
    simp only [LlmOutcome.done.injEq] at hf
    rw [← hf] at hsome
    simp only [List.nil_append, List.flatten_nil] at hsome
    by_cases hb : pyStrip ts.flatten = []
    · simp [llmFinalize, hb] at hsome
    · cases kr with
      | none => simp [llmFinalize, hb, pyTruthy] at hsome
      | some s =>
        refine ⟨s, rfl, ?_⟩
        intro hs0
        rw [hs0] at hsome
        simp [llmFinalize, hb, pyTruthy] at hsome

/-- Witness for C10: one non-blank chunk and a `None` release timestamp:
text is injected and notified, history is skipped. -/
theorem c10_history_requires_release_timestamp_witness :
    (pyStrip (["Hello".toList] : List (List Char)).flatten).isEmpty = false ∧
    llmTask upperRefine [] [] []
        ((["Hello".toList] : List (List Char)).map TextItem.txt
          ++ [TextItem.sentinel none])
      = LlmOutcome.done
          { injected := some "HELLO".toList,
            history := none,
            resultReady := some "HELLO".toList,
            errors := [], finalState := "idle" } := by
  refine ⟨by decide, ?_⟩
  have h := (c10_history_requires_release_timestamp upperRefine [] [] []
    ["Hello".toList]).2.1 (by decide)
  exact h.trans (by decide)

/-- With a refinement call that always raises, the per-chunk fallback leaves
every chunk unrefined: the refined sequence equals the raw sequence. -/
lemma refinedSeqAux_actual_id (sysPrompt : List Char) :
    ∀ (ts : List (List Char)) (ctx : List Char),
      refinedSeqAux actualLLMRefine sysPrompt ctx ts = ts := by
  intro ts
  induction ts with
  | nil => intro ctx; simp [refinedSeqAux]
  | cons t ts ih => intro ctx; simp [refinedSeqAux, actualLLMRefine, ih]

/-- Claim C1 (code bug): the worker invokes the refinement collaborator as
`refine(text, system_prompt=..., context=...)` (worker.py lines 190-194), but
`LLMClient.refine` (llm_client.py line 23) declares parameters
`(raw_text, corrections)`, so the keyword binding fails: `refineCallAccepted`
is false, every call raises `TypeError` inside the per-chunk handler, the
refined accumulator always equals the raw accumulator, and a concrete
session injects its raw (never refined) text. -/
theorem c1_refine_interface_mismatch :
    refineCallAccepted = false ∧
    (∀ (sysPrompt : List Char) (ts : List (List Char)) (kr : Option (List Char)),
      llmLoop actualLLMRefine sysPrompt [] [] (ts.map TextItem.txt ++ [TextItem.sentinel kr])
        = (ts, ts, some kr)) ∧
    llmTask actualLLMRefine [] [] []
        [TextItem.txt "Hello".toList, TextItem.sentinel (some "12:00:00".toList)]
      = LlmOutcome.done
          { injected := some "Hello".toList,
            history := some
              { rawInput := "Hello".toList, refinedOutput := "Hello".toList,
                keyPressAt := [], keyReleaseAt := "12:00:00".toList,
                sttDoneAt := [], llmDoneAt := [] },
            resultReady := some "Hello".toList,
            errors := [], finalState := "idle" } := by
  refine ⟨by decide, ?_, by decide⟩
  intro sysPrompt ts kr
  rw [llmLoop_spec]
  simp [refinedSeqAux_actual_id]

/-- Over a segment-queue sequence of real segments followed by one sentinel,
the STT loop outputs some texts followed by exactly the one forwarded
sentinel, carrying the same release timestamp. -/
lemma sttLoop_shape (transcribe : List Char → List Char → Except String (List Char))
    (basePrompt keyReleaseAt : List Char) :
    ∀ (segs : List (List Char)) (parts : List (List Char)),
    ∃ outs,
      sttLoop transcribe basePrompt parts
          (segs.map SegItem.seg ++ [SegItem.sentinel keyReleaseAt])
        = outs ++ [TextItem.sentinel (some keyReleaseAt)] ∧
      ∀ x ∈ outs, ∃ t, x = TextItem.txt t := by
  intro segs
  induction segs with
  | nil =>
    intro parts
    exact ⟨[], by simp [sttLoop], by simp⟩
  | cons a rest ih =>
    intro parts
    simp only [List.map_cons, List.cons_append, sttLoop]
    cases h : transcribe a (sttPrompt basePrompt parts) with
    | ok t =>
      by_cases hk : (!t.isEmpty && !(pyStrip t).isEmpty) = true
      · obtain ⟨outs, h1, h2⟩ := ih (parts ++ [t])
        refine ⟨TextItem.txt t :: outs, ?_, ?_⟩
        · simp [hk, h1]
        · intro x hx
          rcases List.mem_cons.mp hx with hx | hx
          · exact ⟨t, hx⟩
          · exact h2 x hx
      · obtain ⟨outs, h1, h2⟩ := ih parts
        refine ⟨outs, ?_, h2⟩
        simp only [Bool.not_eq_true] at hk
        simp [hk, h1]
    | error e =>
      obtain ⟨outs, h1, h2⟩ := ih parts
      exact ⟨outs, by simp [h1], h2⟩

/-- Claim C5: the sentinel is the last item of a session's segment queue
(pushed only after the trailing remainder, if any), every earlier item is a
real segment, and the STT stage forwards a sentinel with the same release
timestamp as the last item of the text queue, after all real texts.  Both
queues are FIFO, so in each queue the sentinel is dequeued only after every
real item of the session. -/
theorem c5_sentinel_last
    (transcribe : List Char → List Char → Except String (List Char))
    (basePrompt : List Char) (callbackSegs : List (List Char))
    (remaining keyReleaseAt : List Char) :
    (sessionSegItems callbackSegs remaining keyReleaseAt).getLast?
        = some (SegItem.sentinel keyReleaseAt) ∧
    (∀ x ∈ (sessionSegItems callbackSegs remaining keyReleaseAt).dropLast,
      ∃ a, x = SegItem.seg a) ∧
    ∃ outs,
      sttLoop transcribe basePrompt []
          (sessionSegItems callbackSegs remaining keyReleaseAt)
        = outs ++ [TextItem.sentinel (some keyReleaseAt)] ∧
      ∀ x ∈ outs, ∃ t, x = TextItem.txt t := by
  have hshape : sessionSegItems callbackSegs remaining keyReleaseAt
      = (callbackSegs ++ if remaining.isEmpty then [] else [remaining]).map SegItem.seg
        ++ [SegItem.sentinel keyReleaseAt] := by
    by_cases hr : remaining.isEmpty <;> simp [sessionSegItems, hr]
  refine ⟨?_, ?_, ?_⟩
  · rw [hshape, List.getLast?_concat]
  · intro x hx
    rw [hshape, List.dropLast_concat] at hx
    obtain ⟨a, _, ha⟩ := List.mem_map.mp hx
    exact ⟨a, ha.symm⟩
  · rw [hshape]
    exact sttLoop_shape transcribe basePrompt keyReleaseAt _ []

/-- Claim C2 (code bug): a raised transcription exception on a segment is
swallowed by the per-segment handler (worker.py lines 151-154): nothing is
emitted on `error_occurred`, the loop is not terminated, and — when another
segment follows — its text is still forwarded and later injected, so the
session does not abort.  The `STT Error` report and the early sentinel exist
only on the path where the stage fails outside the per-segment try
(`initError`). -/
theorem c2_stt_error_swallowed :
    sttTask none failTranscribe []
        [SegItem.seg "seg1".toList, SegItem.sentinel "12:00:00".toList]
      = { outputs := [TextItem.sentinel (some "12:00:00".toList)], errors := [] } ∧
    sttTask none transcribeC2 []
        [SegItem.seg "seg1".toList, SegItem.seg "seg2".toList,
         SegItem.sentinel "12:00:00".toList]
      = { outputs := [TextItem.txt "world".toList,
                      TextItem.sentinel (some "12:00:00".toList)], errors := [] } ∧
    llmTask idRefine [] [] []
        (sttTask none transcribeC2 []
          [SegItem.seg "seg1".toList, SegItem.seg "seg2".toList,
           SegItem.sentinel "12:00:00".toList]).outputs
      = LlmOutcome.done
          { injected := some "world".toList,
            history := some
              { rawInput := "world".toList, refinedOutput := "world".toList,
                keyPressAt := [], keyReleaseAt := "12:00:00".toList,
                sttDoneAt := [], llmDoneAt := [] },
            resultReady := some "world".toList,
            errors := [], finalState := "idle" } ∧
    sttTask (some "boom") failTranscribe [] []
      = { outputs := [TextItem.sentinel none], errors := ["STT Error: boom"] } := by
  refine ⟨rfl, rfl, by decide, rfl⟩

/-- The last `n` elements have length at most `n`. -/
lemma pyTakeRight_length_le {α : Type} (l : List α) (n : Nat) :
    (pyTakeRight l n).length ≤ n := by
  simp [pyTakeRight]
  omega

/-- Claim C9: the priming prompt is exactly the glossary when nothing has
been transcribed yet; its length never exceeds the 400-character budget
(unless the glossary alone already does); and it always ends with the full
glossary, preceded by nothing or by a tail (suffix) of the accumulated
session transcript. -/
theorem c9_stt_prompt (basePrompt : List Char) (parts : List (List Char)) :
    sttPrompt basePrompt [] = basePrompt ∧
    (sttPrompt basePrompt parts).length ≤ max maxPromptChars basePrompt.length ∧
    ∃ pre, sttPrompt basePrompt parts = pre ++ basePrompt ∧
      (pre = [] ∨ ∃ s t, s ++ t = parts.flatten ∧
        (pre = t ++ [' '] ∨ (basePrompt = [] ∧ pre = t))) := by
  refine ⟨by simp [sttPrompt], ?_, ?_⟩
  · have hlen400 := pyTakeRight_length_le parts.flatten maxPromptChars
    have hlenB := pyTakeRight_length_le parts.flatten
      ((maxPromptChars : Int) - basePrompt.length - 1).toNat
    simp only [sttPrompt]
    split_ifs with h1 h2 h3 h4 h5
    · exact Nat.le_max_right _ _
    · exact le_trans hlen400 (Nat.le_max_left _ _)
    · exact Nat.le_max_right _ _
    · refine le_trans ?_ (Nat.le_max_left _ _)
      simp only [List.length_append, List.length_cons, maxPromptChars] at *
      omega
    · exact Nat.le_max_right _ _
    · simp at h5
  · simp only [sttPrompt]
    split_ifs with h1 h2 h3 h4 h5
    · exact ⟨[], rfl, Or.inl rfl⟩
    · refine ⟨pyTakeRight parts.flatten maxPromptChars, ?_, ?_⟩
      · simp [List.isEmpty_iff.mp h2]
      · exact Or.inr ⟨parts.flatten.take (parts.flatten.length - maxPromptChars), _,
          by simp [pyTakeRight], Or.inr ⟨List.isEmpty_iff.mp h2, rfl⟩⟩
    · exact ⟨[], rfl, Or.inl rfl⟩
    · refine ⟨pyTakeRight parts.flatten
          ((maxPromptChars : Int) - basePrompt.length - 1).toNat ++ [' '], by simp, ?_⟩
      exact Or.inr ⟨parts.flatten.take (parts.flatten.length
          - ((maxPromptChars : Int) - basePrompt.length - 1).toNat), _,
        by simp [pyTakeRight], Or.inl rfl⟩
    · exact ⟨[], rfl, Or.inl rfl⟩
    · simp at h5

/-- Witness for C9: glossary `GPU, CUDA` and one transcribed chunk. -/
theorem c9_stt_prompt_witness :
    sttPrompt "GPU, CUDA".toList [] = "GPU, CUDA".toList ∧
    (sttPrompt "GPU, CUDA".toList ["hello there".toList]).length
        ≤ max maxPromptChars ("GPU, CUDA".toList).length ∧
    ∃ pre, sttPrompt "GPU, CUDA".toList ["hello there".toList]
        = pre ++ "GPU, CUDA".toList ∧
      (pre = [] ∨ ∃ s t, s ++ t = (["hello there".toList] : List (List Char)).flatten ∧
        (pre = t ++ [' '] ∨ ("GPU, CUDA".toList = [] ∧ pre = t))) :=
  ⟨(c9_stt_prompt "GPU, CUDA".toList ["hello there".toList]).1,
   (c9_stt_prompt "GPU, CUDA".toList ["hello there".toList]).2.1,
   (c9_stt_prompt "GPU, CUDA".toList ["hello there".toList]).2.2⟩

/-- Closed form of the allocator trace: after `n` sessions the next fresh
identity is `2n + 2`, and session `k` was bound to queues `2k + 2` and
`2k + 3`. -/
lemma iterateStart_spec (n : Nat) :
    iterateStart n
      = (⟨2 * n, 2 * n + 1, 2 * n + 2⟩,
         (List.range n).map fun k => ⟨2 * k + 2, 2 * k + 3⟩) := by
  induction n with
  | zero => rfl
  | succ n ih =>
    simp only [iterateStart, ih, start_recording, List.range_succ, List.map_append,
      List.map_cons, List.map_nil]
    refine Prod.ext ?_ ?_ <;>
      simp only [WorkerQueues.mk.injEq, List.append_cancel_left_eq, List.cons.injEq,
        StageBinding.mk.injEq, and_true]
    omega

/-- The binding of session `i`. -/
lemma pipelineSessions_getD (n i : Nat) (h : i < n) :
    (pipelineSessions n).getD i ⟨0, 0⟩ = ⟨2 * i + 2, 2 * i + 3⟩ := by
  unfold pipelineSessions
  rw [iterateStart_spec]
  rw [List.getD_eq_getElem?_getD, List.getElem?_map, List.getElem?_range h]
  rfl

/-- Claim C6: every `start_recording` call binds the session's stage threads
to freshly allocated queues, so the queue identities of two distinct sessions
on the same Worker instance are disjoint — an item enqueued into an earlier
session's segment or text queue can never be dequeued by a later session's
workers, which only dequeue from their own session's queues. -/
theorem c6_fresh_queues (n i j : Nat) (hi : i < n) (hj : j < n) (hij : i ≠ j) :
    bindingsDisjoint ((pipelineSessions n).getD i ⟨0, 0⟩)
        ((pipelineSessions n).getD j ⟨0, 0⟩) = true := by
  rw [pipelineSessions_getD n i hi, pipelineSessions_getD n j hj]
  simp only [bindingsDisjoint, decide_eq_true_eq]
  refine ⟨?_, ?_, ?_, ?_⟩ <;> omega

/-- Witness for C6: the two sessions of a twice-started worker share no
queue. -/
theorem c6_fresh_queues_witness :
    (0 : Nat) < 2 ∧ (1 : Nat) < 2 ∧ (0 : Nat) ≠ 1 ∧
    bindingsDisjoint ((pipelineSessions 2).getD 0 ⟨0, 0⟩)
        ((pipelineSessions 2).getD 1 ⟨0, 0⟩) = true :=
  ⟨by decide, by decide, by decide, c6_fresh_queues 2 0 1 (by decide) (by decide) (by decide)⟩

/-- Running the detector over a concatenation splits into two runs. -/
lemma runDetector_append (st : DetState) (a b : List (List Int)) :
    runDetector st (a ++ b)
      = ((runDetector (runDetector st a).1 b).1,
         (runDetector st a).2 ++ (runDetector (runDetector st a).1 b).2) := by
  induction a generalizing st with
  | nil => simp [runDetector]
  | cons c cs ih => simp [runDetector, ih, List.append_assoc]

/-- Chunks at or above the RMS threshold only extend the buffer, set
`in_speech`, and clear the silence counter; nothing is emitted. -/
lemma runDetector_speech (sp : List (List Int)) :
    ∀ (fr : List (List Int)) (insp : Bool) (silc : Nat),
    (∀ c ∈ sp, rmsAtLeastThreshold c = true) →
    runDetector ⟨fr, insp, silc⟩ sp
      = (⟨fr ++ sp, if sp.isEmpty then insp else true,
          if sp.isEmpty then silc else 0⟩, []) := by
  induction sp with
  | nil => intro fr insp silc _; simp [runDetector]
  | cons c cs ih =>
    intro fr insp silc hall
    have hc : rmsAtLeastThreshold c = true := hall c (by simp)
    simp only [runDetector, detectorStep, hc, if_true]
    rw [ih (fr ++ [c]) true 0 (fun x hx => hall x (by simp [hx]))]
    simp [ite_self]

/-- Silent chunks, while the silence run is still short of the trigger
count, only extend the buffer and the counter. -/
lemma runDetector_silence_low (z : List (List Int)) :
    ∀ (fr : List (List Int)) (j : Nat),
    (∀ c ∈ z, rmsAtLeastThreshold c = false) →
    j + z.length < silenceChunksNeeded →
    runDetector ⟨fr, true, j⟩ z = (⟨fr ++ z, true, j + z.length⟩, []) := by
  induction z with
  | nil => intro fr j _ _; simp [runDetector]
  | cons c cs ih =>
    intro fr j hall hlt
    have hc : rmsAtLeastThreshold c = false := hall c (by simp)
    have h9 : ¬ silenceChunksNeeded ≤ j + 1 := by
      simp only [List.length_cons] at hlt
      omega
    simp only [runDetector, detectorStep, hc, Bool.false_eq_true, if_false, true_and, h9]
    rw [ih (fr ++ [c]) (j + 1) (fun x hx => hall x (by simp [hx]))
      (by simp only [List.length_cons] at hlt ⊢; omega)]
    simp only [List.append_assoc, List.singleton_append, List.length_cons]
    refine Prod.ext ?_ rfl
    simp only [DetState.mk.injEq]
    exact ⟨trivial, trivial, by omega⟩

/-- Silent chunks while `in_speech` is false never trigger finalization. -/
lemma runDetector_silence_idle (z : List (List Int)) :
    ∀ (fr : List (List Int)) (j : Nat),
    (∀ c ∈ z, rmsAtLeastThreshold c = false) →
    runDetector ⟨fr, false, j⟩ z = (⟨fr ++ z, false, j + z.length⟩, []) := by
  induction z with
  | nil => intro fr j _; simp [runDetector]
  | cons c cs ih =>
    intro fr j hall
    have hc : rmsAtLeastThreshold c = false := hall c (by simp)
    simp only [runDetector, detectorStep, hc, Bool.false_eq_true, if_false, false_and]
    rw [ih (fr ++ [c]) (j + 1) (fun x hx => hall x (by simp [hx]))]
    simp only [List.append_assoc, List.singleton_append, List.length_cons]
    refine Prod.ext ?_ rfl
    simp only [DetState.mk.injEq]
    exact ⟨trivial, trivial, by omega⟩

/-- Feeding exactly the trigger count of silent chunks to a detector that is
in speech with a clear silence counter finalizes: the buffered frames before
the silent run are emitted when they number at least `minSpeechChunks`
(otherwise discarded), the silent run is retained as the next buffer, and
both counters reset. -/
lemma runDetector_silence_finalize (sp z : List (List Int))
    (hz : ∀ c ∈ z, rmsAtLeastThreshold c = false)
    (hlen : z.length = silenceChunksNeeded) :
    runDetector ⟨sp, true, 0⟩ z
      = (⟨z, false, 0⟩,
         if minSpeechChunks ≤ sp.length then [sp] else []) := by
  have h8len : (z.take 8).length = 8 := by
    rw [List.length_take, hlen]; decide
  have hdlen : (z.drop 8).length = 1 := by
    rw [List.length_drop, hlen]; decide
  obtain ⟨c, hc⟩ := List.length_eq_one.mp hdlen
  have hcz : rmsAtLeastThreshold c = false := by
    refine hz c (List.drop_subset 8 z ?_)
    rw [hc]; simp
  have hsplit : z = z.take 8 ++ [c] := by
    conv_lhs => rw [← List.take_append_drop 8 z]
    rw [hc]
  have hlow := runDetector_silence_low (z.take 8) sp 0
    (fun x hx => hz x (List.take_subset 8 z hx))
    (by rw [h8len]; decide)
  rw [hsplit, runDetector_append, hlow]
  simp only [runDetector, detectorStep, hcz, Bool.false_eq_true, if_false, true_and, h8len]
  rw [if_pos (by decide : silenceChunksNeeded ≤ 0 + 8 + 1)]
  have hieq : ((((sp ++ z.take 8) ++ [c]).length : Int) - (((0 : Nat) + 8 + 1 : Nat) : Int))
      = (sp.length : Int) := by
    push_cast [List.length_append, List.length_cons, h8len]
    ring_nf
    simp
  rw [hieq]
  by_cases hmin : minSpeechChunks ≤ sp.length
  · rw [if_pos (by exact_mod_cast hmin : ((minSpeechChunks : Nat) : Int) ≤ (sp.length : Int)),
      if_pos hmin]
    simp [pyTakeRight, h8len, Nat.add_sub_cancel, List.drop_left, List.take_left,
      Int.toNat_natCast]
  · rw [if_neg (by
        intro hcon
        exact hmin (by exact_mod_cast hcon)),
      if_neg hmin]
    simp [pyTakeRight, h8len, Nat.add_sub_cancel, List.drop_left, List.take_left,
      Int.toNat_natCast]

/-- Claim C4: from a fresh detector, a burst of at-or-above-threshold chunks
followed by at least `silenceChunksNeeded` below-threshold chunks emits
exactly one segment — exactly the speech chunks preceding the trailing
silent run — when the buffered speech reaches `minSpeechChunks`, and emits
nothing when it is shorter; in both cases, at the finalization point the
trailing silent chunks are retained as the next buffer and both counters are
reset. -/
theorem c4_segment_detector (speech z : List (List Int))
    (hs : ∀ c ∈ speech, rmsAtLeastThreshold c = true)
    (hz : ∀ c ∈ z, rmsAtLeastThreshold c = false)
    (hs1 : 1 ≤ speech.length)
    (hz9 : silenceChunksNeeded ≤ z.length) :
    (runDetector initDetState (speech ++ z)).2
        = (if minSpeechChunks ≤ speech.length then [speech] else []) ∧
    runDetector initDetState (speech ++ z.take silenceChunksNeeded)
        = (⟨z.take silenceChunksNeeded, false, 0⟩,
           if minSpeechChunks ≤ speech.length then [speech] else []) := by
  have hsne : speech.isEmpty = false := by
    cases speech with
    | nil => simp at hs1
    | cons a l => rfl
  have htlen : (z.take silenceChunksNeeded).length = silenceChunksNeeded := by
    simp only [List.length_take]
    omega
  have hrun1 : runDetector initDetState speech = (⟨speech, true, 0⟩, []) := by
    rw [initDetState, runDetector_speech speech [] false 0 hs]
    simp [hsne]
  have hrun2 : runDetector ⟨speech, true, 0⟩ (z.take silenceChunksNeeded)
      = (⟨z.take silenceChunksNeeded, false, 0⟩,
         if minSpeechChunks ≤ speech.length then [speech] else []) :=
    runDetector_silence_finalize speech (z.take silenceChunksNeeded)
      (fun x hx => hz x (List.take_subset silenceChunksNeeded z hx)) htlen
  constructor
  · have hzsplit : z = z.take silenceChunksNeeded ++ z.drop silenceChunksNeeded :=
      (List.take_append_drop silenceChunksNeeded z).symm
    conv_lhs => rw [hzsplit, ← List.append_assoc]
    rw [runDetector_append, runDetector_append, hrun1]
    simp only [hrun2]
    rw [runDetector_silence_idle (z.drop silenceChunksNeeded) _ 0
      (fun x hx => hz x (List.drop_subset silenceChunksNeeded z hx))]
    simp
  · rw [runDetector_append, hrun1]
    simp [hrun2]

/-- Witness for C4: seven one-sample chunks of amplitude 1000 (RMS 1000)
followed by ten zero-sample chunks (RMS 0) emit exactly the speech burst;
three such speech chunks emit nothing. -/
theorem c4_segment_detector_witness :
    (∀ c ∈ List.replicate 7 [(1000 : Int)], rmsAtLeastThreshold c = true) ∧
    (∀ c ∈ List.replicate 10 [(0 : Int)], rmsAtLeastThreshold c = false) ∧
    1 ≤ (List.replicate 7 [(1000 : Int)]).length ∧
    silenceChunksNeeded ≤ (List.replicate 10 [(0 : Int)]).length ∧
    (runDetector initDetState
        (List.replicate 7 [(1000 : Int)] ++ List.replicate 10 [(0 : Int)])).2
      = [List.replicate 7 [(1000 : Int)]] ∧
    (runDetector initDetState
        (List.replicate 3 [(1000 : Int)] ++ List.replicate 10 [(0 : Int)])).2
      = [] := by
  refine ⟨by decide, by decide, by decide, by decide, ?_, ?_⟩
  · have h := (c4_segment_detector (List.replicate 7 [(1000 : Int)])
      (List.replicate 10 [(0 : Int)]) (by decide) (by decide) (by decide) (by decide)).1
    rw [h]
    decide
  · have h := (c4_segment_detector (List.replicate 3 [(1000 : Int)])
      (List.replicate 10 [(0 : Int)]) (by decide) (by decide) (by decide) (by decide)).1
    rw [h]
    decide

end MyTypeless
